import Mathlib

/-!
# PocketFlow-TS core engine: shallow embedding and verification

This file embeds the core graph-execution engine of `pocketflow-ts`
(`src`, the framework file containing the compact copy at lines 1-151 and
the verbose copy at lines 151-469) into Lean and proves properties of the
node lifecycle, the retry/fallback loop, batch execution and flow
orchestration.

Modelling conventions:
* The JS shared store is an abstract type `S` threaded explicitly:
  a phase that may mutate the store returns the new store.
* JS exceptions are modelled with `Except`: a user `exec`/fallback is a
  function into `Except E _`, engine-level errors use `JsError`.
* `null`/`undefined` results are `Option.none`; the JS `Action` type
  (`string | null | undefined`) is `Option String`.
* Lifecycle instrumentation: run functions additionally return the list of
  lifecycle phases invoked, in call order, so that invocation counts and
  ordering are provable; the trace entries mirror the call sites in the
  source text one for one.
-/

namespace PocketFlow

/-- JS `Action = string | null | undefined`; `none` stands for both
`null` and `undefined`. -/
abbrev Action := Option String

/-- Engine-level JavaScript runtime errors. -/
inductive JsError where
  | error (msg : String)
  | typeError (msg : String)
deriving DecidableEq, Repr

/-- Lifecycle phases of a node, for instrumentation traces. -/
inductive Phase where
  | prep
  | exec
  | post
deriving DecidableEq, Repr

/-- Trace of one `Node._exec` retry loop: the `curRetry` value observed by
`exec` at each invocation (in call order), the errors handed to
`execFallback` at each of its invocations, and the overall result
(`Except.ok none` models the JS `undefined` returned when the loop body
never runs, i.e. `maxRetries = 0`). -/
structure ExecTrace (E A : Type) where
  execCalls : List Nat
  fallbackCalls : List E
  result : Except E (Option A)
deriving Repr

/-- `Node._exec` (part_011 lines 42-49, verbose copy lines 253-270),
from loop counter `curRetry`:
```
for (this.curRetry = 0; this.curRetry < this.maxRetries; this.curRetry++) {
  try { return this.exec(prepRes); } catch (e) {
    if (this.curRetry === this.maxRetries - 1) return this.execFallback(prepRes, e);
    ... wait ...
  }
}
```
`exec` receives the current `curRetry` value so that the attempt counter
observable via `this.curRetry` is part of the model; `prepRes` is already
applied in `exec`/`fallback`. The retry delay (`wait`) only spends time and
is not modelled. `AsyncNode._exec` (lines 91-98, verbose 356-369) has the
identical loop with a local counter `i` and is modelled by the same
function. -/
def nodeExecGoT (maxRetries : Nat) (exec : Nat → Except E A)
    (fallback : E → Except E A) (curRetry : Nat) : ExecTrace E A :=
  if h : curRetry < maxRetries then
    match exec curRetry with
    | .ok a => ⟨[curRetry], [], .ok (some a)⟩
    | .error e =>
      if curRetry = maxRetries - 1 then
        ⟨[curRetry], [e], (fallback e).map some⟩
      else
        let t := nodeExecGoT maxRetries exec fallback (curRetry + 1)
        ⟨curRetry :: t.execCalls, t.fallbackCalls, t.result⟩
  else ⟨[], [], .ok none⟩
termination_by maxRetries - curRetry
decreasing_by omega

/-- `Node._exec` with the loop started at `curRetry = 0`, as in the source. -/
def nodeExecT (maxRetries : Nat) (exec : Nat → Except E A)
    (fallback : E → Except E A) : ExecTrace E A :=
  nodeExecGoT maxRetries exec fallback 0

/-- The value computed by `Node._exec` (trace projected away). -/
def nodeExec (maxRetries : Nat) (exec : Nat → Except E A)
    (fallback : E → Except E A) : Except E (Option A) :=
  (nodeExecT maxRetries exec fallback).result

/-- `BaseNode._run`, verbose copy (part_011 lines 204-208):
```
const p = this.prep(shared); const e = this._exec(p);
return this.post(shared, p, e);
```
An exception from `_exec` (the `Except.error` case) propagates and `post`
is not reached. The `List Phase` component is the instrumentation trace of
lifecycle calls in order. -/
def BaseNode_run (prep : S → S × P) (execF : P → Except E A)
    (post : S → P → A → S × Action) (s : S) :
    List Phase × Except E (S × Action) :=
  let (s1, p) := prep s
  match execF p with
  | .error e => ([.prep, .exec], .error e)
  | .ok a => ([.prep, .exec, .post], .ok (post s1 p a))

/-- `BaseNode._run` / `Node._run`, compact copy (part_011 lines 22 and 50):
```
return this.post(shared, this.prep(shared), this._exec(this.prep(shared)));
```
JS evaluates arguments left to right, so `this.prep(shared)` is evaluated
twice: `post` receives the first prepare-result while `_exec` receives the
second. -/
def BaseNode_run_compact (prep : S → S × P) (execF : P → Except E A)
    (post : S → P → A → S × Action) (s : S) :
    List Phase × Except E (S × Action) :=
  let (s1, p1) := prep s
  let (s2, p2) := prep s1
  match execF p2 with
  | .error e => ([.prep, .prep, .exec], .error e)
  | .ok a => ([.prep, .prep, .exec, .post], .ok (post s2 p1 a))

/-- When `exec` fails at every attempt, the retry loop started at any
`r < K` visits exactly the attempt indices `r, r+1, ..., K-1`, hands the
final error to the fallback once, and returns the fallback's value. -/
theorem nodeExecGoT_allFail (K : Nat) (exec : Nat → Except E A)
    (fallback : E → Except E A) (err : Nat → E)
    (hexec : ∀ i, exec i = .error (err i)) :
    ∀ fuel r, K - r = fuel → r < K →
      nodeExecGoT K exec fallback r =
        ⟨List.range' r (K - r), [err (K - 1)], (fallback (err (K - 1))).map some⟩ := by
  intro fuel
  induction fuel with
  | zero => intro r hfuel hr; omega
  | succ n ih =>
    intro r hfuel hr
    rw [nodeExecGoT]
    simp only [hr, dite_true, hexec r]
    by_cases hlast : r = K - 1
    · rw [if_pos hlast, hlast]
      have h1 : K - (K - 1) = 1 := by omega
      rw [h1]
      simp [List.range']
    · simp only [hlast, if_false]
      have h1 : K - (r + 1) = n := by omega
      have h2 : r + 1 < K := by omega
      rw [ih (r + 1) h1 h2]
      have : K - r = (K - (r + 1)) + 1 := by omega
      rw [this, List.range'_succ]

/-- When `exec` fails at attempts `r..J-2` and succeeds at attempt `J-1`,
the loop started at `r ≤ J-1` visits attempts `r..J-1`, never calls the
fallback, and returns the successful value. -/
theorem nodeExecGoT_succeedsAt (K J : Nat) (exec : Nat → Except E A)
    (fallback : E → Except E A) (err : Nat → E) (a : A)
    (hJK : J ≤ K) (hJ : 1 ≤ J)
    (hfail : ∀ i, i < J - 1 → exec i = .error (err i))
    (hok : exec (J - 1) = .ok a) :
    ∀ fuel r, J - r = fuel → r ≤ J - 1 →
      nodeExecGoT K exec fallback r =
        ⟨List.range' r (J - r), [], .ok (some a)⟩ := by
  intro fuel
  induction fuel with
  | zero => intro r hfuel hr; omega
  | succ n ih =>
    intro r hfuel hr
    rw [nodeExecGoT]
    have hrK : r < K := by omega
    simp only [hrK, dite_true]
    by_cases hlast : r = J - 1
    · rw [hlast, hok]
      have h1 : J - (J - 1) = 1 := by omega
      rw [h1]
      simp [List.range']
    · have hrJ : r < J - 1 := by omega
      rw [hfail r hrJ]
      have hne : ¬ r = K - 1 := by omega
      simp only [hne, if_false]
      have h1 : J - (r + 1) = n := by omega
      have h2 : r + 1 ≤ J - 1 := by omega
      rw [ih (r + 1) h1 h2]
      have : J - r = (J - (r + 1)) + 1 := by omega
      rw [this, List.range'_succ]

/-- C1: A Node with `maxRetries = K ≥ 1` whose exec throws on every attempt
invokes exec exactly K times (the `curRetry` seen on the i-th call is i-1,
i.e. the observed counters are `[0, 1, ..., K-1]`, starting from 0 each
run), then invokes `execFallback` exactly once with the prepare-result's
last error, and the fallback's return value is the execute-result passed
to `post`. -/
theorem C1_retry_exhaustion {S P A E : Type}
    (K : Nat) (hK : 1 ≤ K)
    (prep : S → S × P) (execF : P → Nat → Except E A)
    (fallbackF : P → E → Except E A)
    (post : S → P → Option A → S × Action) (s s1 : S) (p : P)
    (err : Nat → E) (v : A)
    (hprep : prep s = (s1, p))
    (hexec : ∀ i, execF p i = .error (err i))
    (hfb : fallbackF p (err (K - 1)) = .ok v) :
    (nodeExecT K (execF p) (fallbackF p)).execCalls = List.range K
    ∧ (nodeExecT K (execF p) (fallbackF p)).execCalls.length = K
    ∧ (nodeExecT K (execF p) (fallbackF p)).execCalls.head? = some 0
    ∧ (nodeExecT K (execF p) (fallbackF p)).fallbackCalls = [err (K - 1)]
    ∧ (nodeExecT K (execF p) (fallbackF p)).result = .ok (some v)
    ∧ BaseNode_run prep (fun q => nodeExec K (execF q) (fallbackF q)) post s
        = ([.prep, .exec, .post], .ok (post s1 p (some v))) := by
  have h := nodeExecGoT_allFail K (execF p) (fallbackF p) err hexec K 0
    (by omega) (by omega)
  have hres : nodeExec K (execF p) (fallbackF p) = .ok (some v) := by
    rw [nodeExec, nodeExecT, h, hfb]
    rfl
  refine ⟨?_, ?_, ?_, ?_, ?_, ?_⟩
  · rw [nodeExecT, h]
    simp [List.range_eq_range']
  · rw [nodeExecT, h]
    simp
  · rw [nodeExecT, h]
    obtain ⟨n, rfl⟩ : ∃ n, K = n + 1 := ⟨K - 1, by omega⟩
    simp [List.range'_succ]
  · rw [nodeExecT, h]
  · rw [← nodeExec, hres]
  · simp [BaseNode_run, hprep, hres]

/-- Closed instance of `C1_retry_exhaustion` at K = 3 with an exec that
always throws its attempt index. -/
theorem C1_retry_exhaustion_witness :
    (nodeExecT 3 (fun i => (Except.error i : Except Nat Bool))
        (fun _ => Except.ok true)).execCalls = List.range 3
    ∧ (nodeExecT 3 (fun i => (Except.error i : Except Nat Bool))
        (fun _ => Except.ok true)).fallbackCalls = [2]
    ∧ BaseNode_run (fun s : Nat => (s + 1, (7 : Nat)))
        (fun _ => nodeExec 3 (fun i => (Except.error i : Except Nat Bool))
          (fun _ => Except.ok true))
        (fun s _ _ => (s, some "done")) 0
        = ([.prep, .exec, .post], .ok ((1 : Nat), some "done")) := by
  have h := C1_retry_exhaustion 3 (by omega)
    (fun s : Nat => (s + 1, (7 : Nat)))
    (fun _ i => (Except.error i : Except Nat Bool))
    (fun _ _ => Except.ok true)
    (fun s _ _ => (s, some "done"))
    0 1 7 (fun i => i) true rfl (fun _ => rfl) rfl
  exact ⟨h.1, h.2.2.2.1, h.2.2.2.2.2⟩

/-- C4: A Node with `maxRetries = K` whose exec throws on attempts
1..J-1 and succeeds on attempt J (J ≤ K) invokes exec exactly J times
(observed counters `[0, ..., J-1]`), never invokes `execFallback`, and the
successful value is the execute-result passed to `post`. -/
theorem C4_retry_success {S P A E : Type}
    (K J : Nat) (hJ : 1 ≤ J) (hJK : J ≤ K)
    (prep : S → S × P) (execF : P → Nat → Except E A)
    (fallbackF : P → E → Except E A)
    (post : S → P → Option A → S × Action) (s s1 : S) (p : P)
    (err : Nat → E) (a : A)
    (hprep : prep s = (s1, p))
    (hfail : ∀ i, i < J - 1 → execF p i = .error (err i))
    (hok : execF p (J - 1) = .ok a) :
    (nodeExecT K (execF p) (fallbackF p)).execCalls = List.range J
    ∧ (nodeExecT K (execF p) (fallbackF p)).execCalls.length = J
    ∧ (nodeExecT K (execF p) (fallbackF p)).fallbackCalls = []
    ∧ (nodeExecT K (execF p) (fallbackF p)).result = .ok (some a)
    ∧ BaseNode_run prep (fun q => nodeExec K (execF q) (fallbackF q)) post s
        = ([.prep, .exec, .post], .ok (post s1 p (some a))) := by
  have h := nodeExecGoT_succeedsAt K J (execF p) (fallbackF p) err a hJK hJ
    hfail hok J 0 (by omega) (by omega)
  have hres : nodeExec K (execF p) (fallbackF p) = .ok (some a) := by
    rw [nodeExec, nodeExecT, h]
  refine ⟨?_, ?_, ?_, ?_, ?_⟩
  · rw [nodeExecT, h]
    simp [List.range_eq_range']
  · rw [nodeExecT, h]
    simp
  · rw [nodeExecT, h]
  · rw [← nodeExec, hres]
  · simp [BaseNode_run, hprep, hres]

/-- Closed instance of `C4_retry_success` at K = 3, J = 2: exec throws on
attempt index 0 and succeeds on attempt index 1. -/
theorem C4_retry_success_witness :
    (nodeExecT 3
        (fun i => if i < 1 then (Except.error i : Except Nat Bool) else .ok true)
        (fun _ => Except.error 99)).execCalls = List.range 2
    ∧ (nodeExecT 3
        (fun i => if i < 1 then (Except.error i : Except Nat Bool) else .ok true)
        (fun _ => Except.error 99)).fallbackCalls = []
    ∧ (nodeExecT 3
        (fun i => if i < 1 then (Except.error i : Except Nat Bool) else .ok true)
        (fun _ => Except.error 99)).result = .ok (some true) := by
  have h := C4_retry_success 3 2 (by omega) (by omega)
    (fun s : Nat => (s, (0 : Nat)))
    (fun _ i => if i < 1 then (Except.error i : Except Nat Bool) else .ok true)
    (fun _ _ => Except.error 99)
    (fun s _ _ => (s, none))
    0 0 0 (fun i => i) true rfl
    (fun i hi => by
      have hi0 : i = 0 := by omega
      subst hi0
      rfl)
    rfl
  exact ⟨h.1, h.2.2.1, h.2.2.2.1⟩

/-! ## Parameters and object spread -/

/-- JS parameter objects (`Params = Record<string, any>`), modelled as
string-keyed association lists read by key via `List.lookup`. -/
abbrev JsParams (V : Type) := List (String × V)

/-- JS object spread `{ ...a, ...b }` (as in `Flow._orch` line 70 and
`BatchFlow._run` line 81): every key of `b` is bound to `b`'s value, and
every key of `a` absent from `b` keeps `a`'s value. The merge is shallow:
a value (even an object-valued one) is replaced whole, never merged
recursively. JS key-enumeration order is not modelled; parameters are
only read by key. -/
def spread (a b : JsParams V) : JsParams V :=
  b ++ a.filter (fun kv => (b.lookup kv.1).isNone)

theorem lookup_append (l₁ l₂ : List (String × V)) (k : String) :
    (l₁ ++ l₂).lookup k = ((l₁.lookup k).orElse fun _ => l₂.lookup k) := by
  induction l₁ with
  | nil => simp [List.lookup]
  | cons kv l ih =>
    obtain ⟨k₁, v₁⟩ := kv
    by_cases h : k = k₁
    · simp [List.lookup, h]
    · have hbeq : (k == k₁) = false := by simpa using h
      simp [List.lookup, hbeq, ih]

theorem lookup_filter_of_none (a b : JsParams V) (k : String)
    (hb : b.lookup k = none) :
    (a.filter (fun kv => (b.lookup kv.1).isNone)).lookup k = a.lookup k := by
  induction a with
  | nil => simp
  | cons kv a ih =>
    obtain ⟨k₁, v₁⟩ := kv
    by_cases h : k = k₁
    · subst h
      simp [List.filter, hb, List.lookup]
    · have hbeq : (k == k₁) = false := by simpa using h
      by_cases hkeep : (b.lookup k₁).isNone
      · simp only [List.filter, hkeep]
        simp [List.lookup, hbeq, ih]
      · simp only [List.filter, hkeep]
        simp [List.lookup, hbeq, ih]

/-- The observable content of the JS spread `{ ...a, ...b }`: a key reads
`b`'s value when `b` has it, else `a`'s. -/
theorem lookup_spread (a b : JsParams V) (k : String) :
    (spread a b).lookup k = ((b.lookup k).orElse fun _ => a.lookup k) := by
  rw [spread, lookup_append]
  cases hb : b.lookup k with
  | some v => simp [Option.orElse]
  | none => simp [Option.orElse, lookup_filter_of_none a b k hb]

/-! ## Flow orchestration -/

/-- One emitted warning from `getNextNode`: the unmatched action and the
node's registered action labels (`Object.keys(curr.successors)`). -/
abbrev Warn := Action × List String

/-- The successor-table key used by `Flow.getNextNode`:
`action || "default"` — JS `||` substitutes `"default"` for every falsy
action, i.e. `null`, `undefined` and the empty string. -/
def effKey : Action → String
  | none => "default"
  | some s => if s = "" then "default" else s

/-- `Flow.getNextNode` (part_011 lines 64-68, verbose 296-302):
```
const nxt = curr.successors[action || "default"];
if (!nxt && Object.keys(curr.successors).length > 0) console.warn(...);
return nxt || null;
```
Returns the successor (or `none`) together with the warning emitted when
the lookup fails while the node has at least one registered successor. -/
def getNextNode (succs : List (String × Nat)) (action : Action) :
    Option Nat × List Warn :=
  let nxt := succs.lookup (effKey action)
  (nxt, if nxt = none ∧ succs ≠ [] then [(action, succs.map Prod.fst)] else [])

/-- A node as reached by `Flow._orch`: `run` is the node's `_run` entry
point, receiving the params installed by `curr.setParams(p)` and the
shared store, and returning the mutated store and the returned action (or
a thrown JS error); `succs` is the successor table (action label → node),
in `Object.keys` order. Nodes are identified by indices into an ambient
graph `g : Nat → GNode S V`; `deepClone` — the shallow copy taken of each
node at every traversal step — is the identity in this value-level model
because mutable node state (`params`, `curRetry`) is threaded explicitly
instead of being mutated in place. -/
structure GNode (S V : Type) where
  run : JsParams V → S → Except JsError (S × Action)
  succs : List (String × Nat)

/-- The `while (curr)` loop of `Flow._orch` (part_011 lines 69-73,
verbose 304-315):
```
while (curr) { curr.setParams(p); lastAction = curr._run(shared);
               curr = deepClone(this.getNextNode(curr, lastAction)); }
return lastAction;
```
`fuel` bounds the (possibly non-terminating) loop: the result is `none`
when the loop does not finish within `fuel` iterations. The loop also
accumulates the warnings emitted by `getNextNode` and a visit log of
`(node, params installed by setParams)` pairs; `p` is constant through
the loop, as in the source. A JS exception thrown by a node propagates. -/
def orchGo (g : Nat → GNode S V) (p : JsParams V) :
    Nat → Option Nat → S → Action → List Warn → List (Nat × JsParams V) →
    Option (Except JsError (S × Action × List Warn × List (Nat × JsParams V)))
  | _, none, s, last, ws, vis => some (.ok (s, last, ws, vis))
  | 0, some _, _, _, _, _ => none
  | fuel + 1, some i, s, _last, ws, vis =>
    match (g i).run p s with
    | .error e => some (.error e)
    | .ok (s2, a) =>
      let nw := getNextNode (g i).succs a
      orchGo g p fuel nw.1 s2 a (ws ++ nw.2) (vis ++ [(i, p)])

/-- `Flow._orch` (part_011 lines 69-73): merges the flow's own params
with the call-site params (`p = { ...this.params, ...params }`), starts at
a clone of the start node with `lastAction = null`. -/
def Flow_orch (g : Nat → GNode S V) (flowParams : JsParams V)
    (startNode : Option Nat) (params : JsParams V) (fuel : Nat) (s : S) :
    Option (Except JsError (S × Action × List Warn × List (Nat × JsParams V))) :=
  orchGo g (spread flowParams params) fuel startNode s none [] []

/-- `Flow._run` (part_011 line 74, verbose 317-321) together with
`Flow.post` (line 75, verbose 323-325), which returns `execRes`
unchanged: the flow's run result action is the orchestration's last
action, `prep` runs first on the store, and `_orch` is called with its
`params` argument defaulted to `{}`. -/
def Flow_run (g : Nat → GNode S V) (flowParams : JsParams V)
    (startNode : Option Nat) (prep : S → S × P) (fuel : Nat) (s : S) :
    Option (Except JsError (S × Action × List Warn × List (Nat × JsParams V))) :=
  let (s1, _p) := prep s
  Flow_orch g flowParams startNode [] fuel s1

/-- C3: For a traversal step where the just-run node `i` returned action
`a`: (1) if the successor table contains the key `a || "default"`, the
traversal transitions to that successor; (2) if `i` has zero successors
the traversal terminates normally with no warning; (3) if `i` has
successors but none matches, a warning naming `a` and the registered
labels is emitted and the traversal terminates without raising; and (4)
in that case the enclosing Flow's run returns `a` as its overall result
action. -/
theorem C3_transition_resolution {S V P : Type}
    (g : Nat → GNode S V) (p : JsParams V) (fuel : Nat) (i : Nat)
    (s s2 : S) (last a : Action) (ws : List Warn)
    (vis : List (Nat × JsParams V))
    (hrun : (g i).run p s = .ok (s2, a)) :
    (∀ j, (g i).succs.lookup (effKey a) = some j →
      orchGo g p (fuel + 1) (some i) s last ws vis
        = orchGo g p fuel (some j) s2 a ws (vis ++ [(i, p)]))
    ∧ ((g i).succs = [] →
      orchGo g p (fuel + 1) (some i) s last ws vis
        = some (.ok (s2, a, ws, vis ++ [(i, p)])))
    ∧ ((g i).succs ≠ [] → (g i).succs.lookup (effKey a) = none →
      orchGo g p (fuel + 1) (some i) s last ws vis
        = some (.ok (s2, a, ws ++ [(a, (g i).succs.map Prod.fst)],
            vis ++ [(i, p)])))
    ∧ (∀ (flowParams : JsParams V) (prep : S → S × P) (s0 : S) (q : P),
        prep s0 = (s, q) →
        (g i).run (spread flowParams []) s = .ok (s2, a) →
        (g i).succs ≠ [] → (g i).succs.lookup (effKey a) = none →
        Flow_run g flowParams (some i) prep (fuel + 1) s0
          = some (.ok (s2, a, [(a, (g i).succs.map Prod.fst)],
              [(i, spread flowParams [])]))) := by
  refine ⟨?_, ?_, ?_, ?_⟩
  · intro j hj
    simp [orchGo, hrun, getNextNode, hj]
  · intro hempty
    simp [orchGo, hrun, getNextNode, hempty, List.lookup]
  · intro hne hnone
    simp [orchGo, hrun, getNextNode, hne, hnone]
  · intro flowParams prep s0 q hprep hrun2 hne hnone
    simp [Flow_run, Flow_orch, hprep, orchGo, hrun2, getNextNode, hne, hnone]

/-- Closed instance of `C3_transition_resolution`, case (3)/(4): the run
node returns action "X" but its only successor is wired under "Y"; the
orchestration ends gracefully with the warning and result action "X". -/
theorem C3_transition_resolution_witness :
    orchGo
      (fun i => if i = 0 then
          (⟨fun _ s => .ok (s + 1, some "X"), [("Y", 1)]⟩ : GNode Nat String)
        else ⟨fun _ s => .ok (s, none), []⟩)
      [] 1 (some 0) 0 none [] []
      = some (.ok (1, some "X", [(some "X", ["Y"])], [(0, [])])) := by
  have h := @C3_transition_resolution Nat String Unit
    (fun i => if i = 0 then
        (⟨fun _ s => .ok (s + 1, some "X"), [("Y", 1)]⟩ : GNode Nat String)
      else ⟨fun _ s => .ok (s, none), []⟩)
    [] 0 0 0 1 none (some "X") [] [] rfl
  exact h.2.2.1 (by simp) (by simp [effKey, List.lookup])

/-- C7: a node whose finalize returns no value (`undefined`/`null`,
modelled `none`, or the empty string) resolves its successor under the
literal label "default"; when a successor is wired there, the traversal
transitions to it. -/
theorem C7_default_action {S V : Type}
    (g : Nat → GNode S V) (p : JsParams V) (fuel : Nat) (i j : Nat)
    (s s2 : S) (last a : Action) (ws : List Warn)
    (vis : List (Nat × JsParams V))
    (hrun : (g i).run p s = .ok (s2, a))
    (ha : a = none ∨ a = some "")
    (hdef : (g i).succs.lookup "default" = some j) :
    effKey a = "default"
    ∧ orchGo g p (fuel + 1) (some i) s last ws vis
        = orchGo g p fuel (some j) s2 a ws (vis ++ [(i, p)]) := by
  have hkey : effKey a = "default" := by
    rcases ha with h | h <;> subst h <;> simp [effKey]
  refine ⟨hkey, ?_⟩
  simp only [orchGo, hrun]
  simp [getNextNode, hkey, hdef]

/-- Closed instance of `C7_default_action`: finalize returns `undefined`,
the node's only successor is wired under "default", and the traversal
steps to it. -/
theorem C7_default_action_witness :
    effKey none = "default"
    ∧ orchGo
        (fun i => if i = 0 then
            (⟨fun _ s => .ok (s + 1, none), [("default", 1)]⟩ : GNode Nat String)
          else ⟨fun _ s => .ok (s, none), []⟩)
        [] 3 (some 0) 0 none [] []
      = orchGo
        (fun i => if i = 0 then
            (⟨fun _ s => .ok (s + 1, none), [("default", 1)]⟩ : GNode Nat String)
          else ⟨fun _ s => .ok (s, none), []⟩)
        [] 2 (some 1) 1 none [] [(0, [])] := by
  have h := @C7_default_action Nat String
    (fun i => if i = 0 then
        (⟨fun _ s => .ok (s + 1, none), [("default", 1)]⟩ : GNode Nat String)
      else ⟨fun _ s => .ok (s, none), []⟩)
    [] 2 0 1 0 1 none none [] [] rfl (Or.inl rfl)
    (by simp [List.lookup])
  exact ⟨h.1, h.2⟩

/-! ## Batch nodes -/

/-- JS `Array.prototype.map` with a callback that may throw: items are
visited in input order and the first thrown exception aborts the map and
propagates. -/
def mapExcept (g : A → Except E B) : List A → Except E (List B)
  | [] => .ok []
  | x :: xs =>
    match g x with
    | .error e => .error e
    | .ok b => (mapExcept g xs).map (fun bs => b :: bs)

/-- `Promise.all` over a list of already-started item computations:
resolves to the list of values in input order when every item resolves;
rejects when some item rejects (modelled as the first rejecting item in
list order). -/
def promiseAll : List (Except E B) → Except E (List B)
  | [] => .ok []
  | x :: xs =>
    match x with
    | .error e => .error e
    | .ok b =>
      match promiseAll xs with
      | .error e => .error e
      | .ok bs => .ok (b :: bs)

/-- `BatchNode._exec` (part_011 line 55, verbose 273-281):
`return (items || []).map(item => super._exec(item));` — `super._exec` is
the `Node._exec` retry loop applied per item; a `null`/`undefined`
prepare-result coalesces to `[]`. -/
def BatchNode_exec (maxRetries : Nat) (execF : A → Nat → Except E B)
    (fallbackF : A → E → Except E B) (items : Option (List A)) :
    Except E (List (Option B)) :=
  mapExcept (fun it => nodeExec maxRetries (execF it) (fallbackF it))
    (items.getD [])

/-- `BatchNode._exec` with the per-item retry traces retained: each item
is wrapped in its own independent `Node._exec` retry/fallback loop. -/
def BatchNode_execT (maxRetries : Nat) (execF : A → Nat → Except E B)
    (fallbackF : A → E → Except E B) (items : List A) :
    List (ExecTrace E B) :=
  items.map (fun it => nodeExecT maxRetries (execF it) (fallbackF it))

/-- `AsyncBatchNode._exec` (part_011 lines 107-109):
`return Promise.all((items || []).map(item => super._exec(item)));` —
`null`/`undefined` coalesces to `[]`. (The verbose copy, lines 389-397,
iterates `items` without the coalescing.) -/
def AsyncBatchNode_exec (maxRetries : Nat)
    (execF : A → Nat → Except JsError B)
    (fallbackF : A → JsError → Except JsError B) (items : Option (List A)) :
    Except JsError (List (Option B)) :=
  promiseAll ((items.getD []).map
    (fun it => nodeExec maxRetries (execF it) (fallbackF it)))

/-- `AsyncParallelBatchNode._exec` (part_011 lines 111-113, verbose
399-403): `return Promise.all(items.map(item => super._exec(item)));` —
no coalescing: on a `null`/`undefined` prepare-result, `items.map` throws
a TypeError and the run rejects. -/
def AsyncParallelBatchNode_exec (maxRetries : Nat)
    (execF : A → Nat → Except JsError B)
    (fallbackF : A → JsError → Except JsError B) (items : Option (List A)) :
    Except JsError (List (Option B)) :=
  match items with
  | none => .error (.typeError "Cannot read properties of null (reading 'map')")
  | some xs => promiseAll (xs.map
      (fun it => nodeExec maxRetries (execF it) (fallbackF it)))

/-- `AsyncNode._runAsync` (verbose copy, part_011 lines 378-382): the
same single-lifecycle pattern as `BaseNode._run`, with the async phases
awaited in sequence. (The compact copy, line 103, evaluates `prepAsync`
twice — the same slip as the compact `_run`.) -/
def AsyncNode_runAsync (prep : S → S × P) (execF : P → Except JsError A)
    (post : S → P → A → S × Action) (s : S) :
    List Phase × Except JsError (S × Action) :=
  let (s1, p) := prep s
  match execF p with
  | .error e => ([.prep, .exec], .error e)
  | .ok a => ([.prep, .exec, .post], .ok (post s1 p a))

theorem mapExcept_ok (g : A → Except E B) (f : A → B) :
    ∀ xs : List A, (∀ x ∈ xs, g x = .ok (f x)) →
      mapExcept g xs = .ok (xs.map f) := by
  intro xs
  induction xs with
  | nil => intro _; rfl
  | cons x xs ih =>
    intro hall
    rw [mapExcept, hall x (by simp), ih (fun y hy => hall y (by simp [hy]))]
    rfl

theorem promiseAll_ok (g : A → Except E B) (f : A → B) :
    ∀ xs : List A, (∀ x ∈ xs, g x = .ok (f x)) →
      promiseAll (xs.map g) = .ok (xs.map f) := by
  intro xs
  induction xs with
  | nil => intro _; rfl
  | cons x xs ih =>
    intro hall
    simp only [List.map_cons, promiseAll, hall x (by simp),
      ih (fun y hy => hall y (by simp [hy]))]

/-- The `Node._exec` loop when the first attempt already succeeds. -/
theorem nodeExec_first_ok (K : Nat) (hK : 1 ≤ K) (exec : Nat → Except E A)
    (fallback : E → Except E A) (a : A) (h : exec 0 = .ok a) :
    nodeExec K exec fallback = .ok (some a) := by
  rw [nodeExec, nodeExecT, nodeExecGoT]
  have h0 : 0 < K := hK
  simp [h0, h]

/-- C5: a batch node's execute-result list equals the input-order map of
the per-item wrapped execute over the prepare-result, also for the
parallel variant (`Promise.all` keeps input order); each item is wrapped
in its own independent retry/fallback loop; an empty input list yields an
empty result list; and finalize is invoked with the full ordered list. -/
theorem C5_batch_ordering {S A B : Type}
    (K : Nat) (execF : A → Nat → Except JsError B)
    (fallbackF : A → JsError → Except JsError B)
    (items : List A) (f : A → Option B)
    (prep : S → S × Option (List A))
    (post : S → Option (List A) → List (Option B) → S × Action)
    (s s1 : S)
    (hOk : ∀ x ∈ items, nodeExec K (execF x) (fallbackF x) = .ok (f x))
    (hprep : prep s = (s1, some items)) :
    BatchNode_exec K execF fallbackF (some items) = .ok (items.map f)
    ∧ AsyncParallelBatchNode_exec K execF fallbackF (some items)
        = .ok (items.map f)
    ∧ (∀ x pre suf, items = pre ++ x :: suf →
        BatchNode_execT K execF fallbackF items
          = BatchNode_execT K execF fallbackF pre
            ++ nodeExecT K (execF x) (fallbackF x)
              :: BatchNode_execT K execF fallbackF suf)
    ∧ BatchNode_exec K execF fallbackF (some []) = .ok []
    ∧ BaseNode_run prep (BatchNode_exec K execF fallbackF) post s
        = ([.prep, .exec, .post], .ok (post s1 (some items) (items.map f))) := by
  have hmain : BatchNode_exec K execF fallbackF (some items)
      = .ok (items.map f) := by
    rw [BatchNode_exec]
    exact mapExcept_ok _ f items hOk
  refine ⟨hmain, ?_, ?_, ?_, ?_⟩
  · rw [AsyncParallelBatchNode_exec]
    exact promiseAll_ok _ f items hOk
  · intro x pre suf hsplit
    subst hsplit
    simp [BatchNode_execT]
  · rfl
  · simp [BaseNode_run, hprep, hmain]

/-- Closed instance of `C5_batch_ordering`: doubling each of `[1, 2, 3]`
with one attempt yields `[2, 4, 6]` in order, for the sequential and
parallel batch variants. -/
theorem C5_batch_ordering_witness :
    BatchNode_exec 1 (fun x _ => (Except.ok (x * 2) : Except JsError Nat))
      (fun _ e => Except.error e) (some [1, 2, 3])
      = .ok [some 2, some 4, some 6]
    ∧ AsyncParallelBatchNode_exec 1
        (fun x _ => (Except.ok (x * 2) : Except JsError Nat))
        (fun _ e => Except.error e) (some [1, 2, 3])
      = .ok [some 2, some 4, some 6] := by
  have h := C5_batch_ordering 1
    (fun x _ => (Except.ok (x * 2) : Except JsError Nat))
    (fun _ e => Except.error e) [1, 2, 3] (fun x => some (x * 2))
    (fun u : Unit => (u, some [1, 2, 3])) (fun u _ _ => (u, none)) () ()
    (fun x _ => nodeExec_first_ok 1 (by omega) _ _ _ rfl) rfl
  exact ⟨h.1, h.2.1⟩

/-- C10: a `null`/`undefined` prepare-result is coalesced to an empty
batch by `BatchNode._exec` and `AsyncBatchNode._exec` (no per-item
execute runs; finalize receives `[]`), but `AsyncParallelBatchNode._exec`
maps over it without coalescing and the run rejects with a TypeError. -/
theorem C10_null_prep_result {S A B : Type}
    (K : Nat) (execF : A → Nat → Except JsError B)
    (fallbackF : A → JsError → Except JsError B)
    (prep : S → S × Option (List A))
    (post : S → Option (List A) → List (Option B) → S × Action)
    (s s1 : S) (hprep : prep s = (s1, none)) :
    BatchNode_exec K execF fallbackF none = .ok []
    ∧ AsyncBatchNode_exec K execF fallbackF none = .ok []
    ∧ BatchNode_execT K execF fallbackF ((none : Option (List A)).getD []) = []
    ∧ BaseNode_run prep (BatchNode_exec K execF fallbackF) post s
        = ([.prep, .exec, .post], .ok (post s1 none []))
    ∧ AsyncNode_runAsync prep (AsyncBatchNode_exec K execF fallbackF) post s
        = ([.prep, .exec, .post], .ok (post s1 none []))
    ∧ AsyncParallelBatchNode_exec K execF fallbackF none
        = .error (.typeError "Cannot read properties of null (reading 'map')")
    ∧ AsyncNode_runAsync prep (AsyncParallelBatchNode_exec K execF fallbackF)
        post s
        = ([.prep, .exec],
            .error (.typeError "Cannot read properties of null (reading 'map')")) := by
  refine ⟨rfl, rfl, rfl, ?_, ?_, rfl, ?_⟩
  · simp [BaseNode_run, hprep, BatchNode_exec, mapExcept]
  · simp [AsyncNode_runAsync, hprep, AsyncBatchNode_exec, promiseAll]
  · simp [AsyncNode_runAsync, hprep, AsyncParallelBatchNode_exec]

/-- Closed instance of `C10_null_prep_result` with a concrete item type. -/
theorem C10_null_prep_result_witness :
    BatchNode_exec 2 (fun x _ => (Except.ok (x + 1) : Except JsError Nat))
      (fun _ e => Except.error e) none = .ok []
    ∧ AsyncParallelBatchNode_exec 2
        (fun x _ => (Except.ok (x + 1) : Except JsError Nat))
        (fun _ e => Except.error e) none
      = .error (.typeError "Cannot read properties of null (reading 'map')") := by
  have h := C10_null_prep_result 2
    (fun x _ => (Except.ok (x + 1) : Except JsError Nat))
    (fun _ e => Except.error e)
    (fun u : Unit => (u, none)) (fun u _ _ => (u, none)) () () rfl
  exact ⟨h.1, h.2.2.2.2.2.1⟩

/-! ## Batch flow -/

/-- The `for (const bp of pr)` loop of `BatchFlow._run` (part_011
lines 79-83, verbose 328-336): one full `_orch` traversal per parameter
set, with call-site params `{ ...this.params, ...bp }`, all sharing the
store in sequence. The result keeps, per parameter set, the visit log of
its traversal. Fuel exhaustion (`none`) and JS exceptions propagate. -/
def BatchFlow_loop (g : Nat → GNode S V) (flowParams : JsParams V)
    (startNode : Option Nat) (fuel : Nat) :
    List (JsParams V) → S →
    Option (Except JsError (S × List (JsParams V × List (Nat × JsParams V))))
  | [], s => some (.ok (s, []))
  | bp :: rest, s =>
    match Flow_orch g flowParams startNode (spread flowParams bp) fuel s with
    | none => none
    | some (.error e) => some (.error e)
    | some (.ok (s2, _a, _ws, vis)) =>
      match BatchFlow_loop g flowParams startNode fuel rest s2 with
      | none => none
      | some (.error e) => some (.error e)
      | some (.ok (s3, logs)) => some (.ok (s3, (bp, vis) :: logs))

/-- `BatchFlow._run` (part_011 lines 79-83, verbose 328-336):
```
const pr = this.prep(shared) || [];
for (const bp of pr) this._orch(shared, { ...this.params, ...bp });
return this.post(shared, pr, null);
```
`post` runs once after all iterations, receiving the (coalesced)
parameter-set list and a `null` execute-result. -/
def BatchFlow_run (g : Nat → GNode S V) (flowParams : JsParams V)
    (startNode : Option Nat)
    (prep : S → S × Option (List (JsParams V)))
    (post : S → List (JsParams V) → Option Unit → S × Action)
    (fuel : Nat) (s : S) :
    Option (Except JsError
      (S × Action × List (JsParams V × List (Nat × JsParams V)))) :=
  let (s1, pr?) := prep s
  let pr := pr?.getD []
  match BatchFlow_loop g flowParams startNode fuel pr s1 with
  | none => none
  | some (.error e) => some (.error e)
  | some (.ok (s2, logs)) =>
    let (s3, act) := post s2 pr none
    some (.ok (s3, act, logs))

/-- Every entry of the visit log produced by the `_orch` loop either was
already in the accumulator or carries exactly the loop's constant params
`p` (the value installed by `curr.setParams(p)` at every step). -/
theorem orchGo_vis_params (g : Nat → GNode S V) (p : JsParams V) :
    ∀ (fuel : Nat) (cur : Option Nat) (s : S) (last : Action)
      (ws : List Warn) (vis : List (Nat × JsParams V))
      (s' : S) (a' : Action) (ws' : List Warn)
      (vis' : List (Nat × JsParams V)),
      orchGo g p fuel cur s last ws vis = some (.ok (s', a', ws', vis')) →
      ∀ e ∈ vis', e ∈ vis ∨ e.2 = p := by
  intro fuel
  induction fuel with
  | zero =>
    intro cur s last ws vis s' a' ws' vis' h e he
    cases cur with
    | none =>
      simp only [orchGo, Option.some.injEq, Except.ok.injEq,
        Prod.mk.injEq] at h
      obtain ⟨_, _, _, h4⟩ := h
      subst h4
      exact Or.inl he
    | some i => simp [orchGo] at h
  | succ n ih =>
    intro cur s last ws vis s' a' ws' vis' h e he
    cases cur with
    | none =>
      simp only [orchGo, Option.some.injEq, Except.ok.injEq,
        Prod.mk.injEq] at h
      obtain ⟨_, _, _, h4⟩ := h
      subst h4
      exact Or.inl he
    | some i =>
      simp only [orchGo] at h
      cases hrun : (g i).run p s with
      | error err => rw [hrun] at h; simp at h
      | ok pr =>
        obtain ⟨s2, a⟩ := pr
        rw [hrun] at h
        simp only at h
        have := ih (getNextNode (g i).succs a).1 s2 a
          (ws ++ (getNextNode (g i).succs a).2) (vis ++ [(i, p)])
          s' a' ws' vis' h e he
        rcases this with hmem | hp
        · rcases List.mem_append.mp hmem with h1 | h1
          · exact Or.inl h1
          · simp only [List.mem_singleton] at h1
            subst h1
            exact Or.inr rfl
        · exact Or.inr hp

/-- In a successful `BatchFlow` loop, every per-parameter-set visit log
belongs to a parameter set from the prepared list, and every node visited
during the iteration for `bp` observed exactly the params
`{ ...flowParams, ...{ ...flowParams, ...bp } }`. -/
theorem BatchFlow_loop_vis (g : Nat → GNode S V) (flowParams : JsParams V)
    (startNode : Option Nat) (fuel : Nat) :
    ∀ (pr : List (JsParams V)) (s s' : S)
      (logs : List (JsParams V × List (Nat × JsParams V))),
      BatchFlow_loop g flowParams startNode fuel pr s
        = some (.ok (s', logs)) →
      ∀ bv ∈ logs, bv.1 ∈ pr ∧
        ∀ e ∈ bv.2, e.2 = spread flowParams (spread flowParams bv.1) := by
  intro pr
  induction pr with
  | nil =>
    intro s s' logs h bv hbv
    simp only [BatchFlow_loop, Option.some.injEq, Except.ok.injEq,
      Prod.mk.injEq] at h
    obtain ⟨_, h2⟩ := h
    subst h2
    simp at hbv
  | cons bp rest ih =>
    intro s s' logs h bv hbv
    simp only [BatchFlow_loop] at h
    cases horch : Flow_orch g flowParams startNode (spread flowParams bp)
        fuel s with
    | none => rw [horch] at h; simp at h
    | some r =>
      rw [horch] at h
      cases r with
      | error e => simp at h
      | ok t =>
        obtain ⟨s2, a, ws, vis⟩ := t
        simp only at h
        cases hloop : BatchFlow_loop g flowParams startNode fuel rest s2 with
        | none => rw [hloop] at h; simp at h
        | some r2 =>
          rw [hloop] at h
          cases r2 with
          | error e => simp at h
          | ok t2 =>
            obtain ⟨s3, logs'⟩ := t2
            simp only [Option.some.injEq, Except.ok.injEq,
              Prod.mk.injEq] at h
            obtain ⟨h1, h2⟩ := h
            subst h1
            subst h2
            rcases List.mem_cons.mp hbv with hhead | htail
            · subst hhead
              refine ⟨by simp, ?_⟩
              intro e he
              have := orchGo_vis_params g
                (spread flowParams (spread flowParams bp)) fuel startNode s
                none [] [] s2 a ws vis horch e he
              rcases this with hmem | hp
              · simp at hmem
              · exact hp
            · have := ih s2 _ logs' hloop bv htail
              exact ⟨List.mem_cons_of_mem _ this.1, this.2⟩

/-- Reading a key through the double spread performed by
`BatchFlow._run` + `Flow._orch` gives the parameter set's value when it
has the key, else the flow's own value: the inner set wins on conflict. -/
theorem lookup_spread_self (a b : JsParams V) (k : String) :
    (spread a (spread a b)).lookup k
      = ((b.lookup k).orElse fun _ => a.lookup k) := by
  rw [lookup_spread, lookup_spread]
  cases hb : b.lookup k with
  | some v => simp [Option.orElse]
  | none =>
    simp only [Option.orElse]
    cases a.lookup k <;> simp

/-- C6: during a BatchFlow run, the parameters observed by every node of
the traversal for parameter set `bp` are the shallow merge of the
BatchFlow's own params with `bp`, keys of `bp` winning on conflict (the
merge is shallow because a value — `V` is arbitrary, so also an
object-valued one — is replaced whole, never merged recursively). -/
theorem C6_param_merge_precedence {S V : Type}
    (g : Nat → GNode S V) (flowParams : JsParams V) (startNode : Option Nat)
    (fuel : Nat) (pr : List (JsParams V)) (s s' : S)
    (logs : List (JsParams V × List (Nat × JsParams V)))
    (hloop : BatchFlow_loop g flowParams startNode fuel pr s
      = some (.ok (s', logs))) :
    ∀ bv ∈ logs, bv.1 ∈ pr ∧
      ∀ e ∈ bv.2, ∀ k : String,
        e.2.lookup k = ((bv.1.lookup k).orElse fun _ => flowParams.lookup k) := by
  intro bv hbv
  have h := BatchFlow_loop_vis g flowParams startNode fuel pr s s' logs
    hloop bv hbv
  refine ⟨h.1, ?_⟩
  intro e he k
  rw [h.2 e he, lookup_spread_self]

/-- Closed instance of `C6_param_merge_precedence`: flow params
`{type: "outer"}`, parameter set `{filename: "x", type: "inner"}` — the
visited node observes `type = "inner"` and `filename = "x"`. -/
theorem C6_param_merge_precedence_witness :
    ((spread [("type", "outer")]
        (spread [("type", "outer")] [("filename", "x"), ("type", "inner")])
          ).lookup "type" = some "inner")
    ∧ ((spread [("type", "outer")]
        (spread [("type", "outer")] [("filename", "x"), ("type", "inner")])
          ).lookup "filename" = some "x") := by
  have h := C6_param_merge_precedence
    (fun _ => (⟨fun _ s => .ok (s, none), []⟩ : GNode Nat String))
    [("type", "outer")] (some 0) 1
    [[("filename", "x"), ("type", "inner")]] 0 0
    [([("filename", "x"), ("type", "inner")],
      [(0, spread [("type", "outer")]
        (spread [("type", "outer")] [("filename", "x"), ("type", "inner")]))])]
    (by simp [BatchFlow_loop, Flow_orch, orchGo, getNextNode])
    ([("filename", "x"), ("type", "inner")],
      [(0, spread [("type", "outer")]
        (spread [("type", "outer")] [("filename", "x"), ("type", "inner")]))])
    (by simp)
  have h2 := h.2
    (0, spread [("type", "outer")]
      (spread [("type", "outer")] [("filename", "x"), ("type", "inner")]))
    (by simp)
  exact ⟨h2 "type", h2 "filename"⟩

/-! ## Direct run, async nodes, and the compact-copy prepare slip -/

/-- `BaseNode.run` (part_011 lines 23-26, verbose 210-215):
```
if (Object.keys(this.successors).length > 0) console.warn("Node won't run successors. Use Flow.");
return this._run(shared);
```
The Bool is the warning flag; `_run` is the single-lifecycle entry, and
the successor table is never consulted for traversal. -/
def BaseNode_runDirect (succs : List (String × Nat))
    (runInner : S → List Phase × Except E (S × Action)) (s : S) :
    Bool × List Phase × Except E (S × Action) :=
  (decide (0 < succs.length), runInner s)

/-- C8: running a node directly executes exactly one
prepare → execute → finalize lifecycle (phase trace
`[prep, exec, post]`), returns that lifecycle's action, emits the
"won't run successors" warning exactly when successors are wired, and
produces a result that does not depend on the wired successors (no
successor is run). -/
theorem C8_direct_run_single_step {S P A E : Type}
    (succs : List (String × Nat)) (prep : S → S × P)
    (execF : P → Except E A) (post : S → P → A → S × Action)
    (s s1 : S) (p : P) (a : A)
    (hprep : prep s = (s1, p)) (hexec : execF p = .ok a) :
    ((BaseNode_runDirect succs (BaseNode_run prep execF post) s).1 = true
      ↔ succs ≠ [])
    ∧ (BaseNode_runDirect succs (BaseNode_run prep execF post) s).2
        = ([.prep, .exec, .post], .ok (post s1 p a))
    ∧ (BaseNode_runDirect succs (BaseNode_run prep execF post) s).2
        = (BaseNode_runDirect [] (BaseNode_run prep execF post) s).2 := by
  refine ⟨?_, ?_, rfl⟩
  · simp [BaseNode_runDirect, List.length_pos]
  · simp [BaseNode_runDirect, BaseNode_run, hprep, hexec]

/-- Closed instance of `C8_direct_run_single_step`: a node with one wired
successor, run directly, warns and performs the single lifecycle only. -/
theorem C8_direct_run_single_step_witness :
    ((BaseNode_runDirect [("default", 3)]
        (BaseNode_run (fun u : Unit => (u, (5 : Nat)))
          (fun q => (Except.ok (q + 1) : Except JsError Nat))
          (fun u q e => (u, some (toString (q + e))))) ()).1 = true
      ↔ ([("default", 3)] : List (String × Nat)) ≠ [])
    ∧ (BaseNode_runDirect [("default", 3)]
        (BaseNode_run (fun u : Unit => (u, (5 : Nat)))
          (fun q => (Except.ok (q + 1) : Except JsError Nat))
          (fun u q e => (u, some (toString (q + e))))) ()).2
        = ([.prep, .exec, .post], .ok ((), some "11")) := by
  have h := C8_direct_run_single_step [("default", 3)]
    (fun u : Unit => (u, (5 : Nat)))
    (fun q => (Except.ok (q + 1) : Except JsError Nat))
    (fun u q e => (u, some (toString (q + e)))) () () 5 6 rfl rfl
  exact ⟨h.1, h.2.1⟩

/-- `AsyncNode._run` (part_011 line 104, verbose 384-386):
`protected _run(shared): Action { throw new Error("Use runAsync."); }` —
the synchronous entry throws immediately; the phase trace is empty
because no lifecycle phase runs. -/
def AsyncNode_run (s : S) : List Phase × Except JsError (S × Action) :=
  ([], .error (.error "Use runAsync."))

/-- An `AsyncNode` wired into a synchronous `Flow` graph: `_orch`
(part_011 lines 69-73) invokes `curr._run(shared)`, which is
`AsyncNode_run`, for whatever params were installed. -/
def asyncGNode (succs : List (String × Nat)) : GNode S V :=
  ⟨fun _ s => (AsyncNode_run s).2, succs⟩

/-- C9: invoking an AsyncNode through the synchronous path throws
`Error("Use runAsync.")` before any lifecycle phase runs (empty phase
trace, store untouched), both directly and when a plain synchronous
Flow's traversal reaches the async node (the orchestration then rejects
with that error). -/
theorem C9_async_node_sync_path {S V : Type}
    (g : Nat → GNode S V) (p : JsParams V) (fuel i : Nat) (s : S)
    (last : Action) (ws : List Warn) (vis : List (Nat × JsParams V))
    (succs : List (String × Nat)) (hg : g i = asyncGNode succs) :
    (∀ t : S, AsyncNode_run t
      = ([], .error (.error "Use runAsync.")))
    ∧ orchGo g p (fuel + 1) (some i) s last ws vis
        = some (.error (.error "Use runAsync.")) := by
  refine ⟨fun t => rfl, ?_⟩
  simp [orchGo, hg, asyncGNode, AsyncNode_run]

/-- Closed instance of `C9_async_node_sync_path`: a one-node synchronous
flow whose start node is an AsyncNode rejects at once. -/
theorem C9_async_node_sync_path_witness :
    orchGo (fun _ => (asyncGNode [] : GNode Nat String)) [] 1 (some 0) 0
      none [] []
      = some (.error (.error "Use runAsync.")) := by
  have h := C9_async_node_sync_path
    (fun _ => (asyncGNode [] : GNode Nat String)) [] 0 0 0 none [] [] []
    rfl
  exact h.2

/-- C2 (defect evidence): the compact `BaseNode._run`/`Node._run`
(part_011 lines 22/50) evaluates `this.prep(shared)` twice per run. With
a prepare that returns the current store counter and increments it, the
phase trace records two `prep` invocations, execute observes the second
prepare-result (1) while finalize observes the first (0) — encoded in the
store as `s + 10*prepRes + 100*execRes = 2 + 0 + 100`. The verbose copy
(lines 204-208) invokes prepare once and hands the same prepare-result to
both execute and finalize, matching the claim and the repository's own
node documentation. -/
theorem C2_compact_run_calls_prep_twice :
    BaseNode_run_compact (fun n : Nat => (n + 1, n))
      (fun q => (Except.ok q : Except JsError Nat))
      (fun s q e => (s + 10 * q + 100 * e, none)) 0
      = ([.prep, .prep, .exec, .post], .ok (102, none))
    ∧ BaseNode_run (fun n : Nat => (n + 1, n))
      (fun q => (Except.ok q : Except JsError Nat))
      (fun s q e => (s + 10 * q + 100 * e, none)) 0
      = ([.prep, .exec, .post], .ok (1, none)) := by
  exact ⟨rfl, rfl⟩

end PocketFlow
